import Mathlib

/-!
A verification development for the core of the KES key-management service:
the stateless vault, the identity HTTP handlers, the identity fingerprint
computation, and the envelope key engine. Bytes are modelled as `List Nat`
(each entry a byte value), machine words as `Nat` reduced mod `2 ^ 32`,
and fallible operations as `Except`/`Option` results. Handlers are pure
functions from a request and an explicit backend environment to a record
of the observable output (HTTP error, response body, emitted NDJSON
records, whether the store iterator was closed).
-/

namespace Kes

/-- Byte strings are lists of byte values. -/
abbrev Bytes := List Nat

/-- Reduce a natural number to a 32-bit word. -/
def w32 (n : Nat) : Nat := n % 4294967296

/-- Reduce a natural number to a byte. -/
def w8 (n : Nat) : Nat := n % 256

/-- Bitwise complement within 32 bits. -/
def bnot32 (x : Nat) : Nat := 4294967295 ^^^ w32 x

/-- Rotate a 32-bit word right by `n` bits. -/
def rotr (n x : Nat) : Nat := w32 ((x >>> n) ||| (x <<< (32 - n)))

/-- The SHA-256 round constants (FIPS 180-4), in decimal. -/
def sha256K : List Nat :=
  [1116352408, 1899447441, 3049323471, 3921009573, 961987163, 1508970993,
   2453635748, 2870763221, 3624381080, 310598401, 607225278, 1426881987,
   1925078388, 2162078206, 2614888103, 3248222580, 3835390401, 4022224774,
   264347078, 604807628, 770255983, 1249150122, 1555081692, 1996064986,
   2554220882, 2821834349, 2952996808, 3210313671, 3336571891, 3584528711,
   113926993, 338241895, 666307205, 773529912, 1294757372, 1396182291,
   1695183700, 1986661051, 2177026350, 2456956037, 2730485921, 2820302411,
   3259730800, 3345764771, 3516065817, 3600352804, 4094571909, 275423344,
   430227734, 506948616, 659060556, 883997877, 958139571, 1322822218,
   1537002063, 1747873779, 1955562222, 2024104815, 2227730452, 2361852424,
   2428436474, 2756734187, 3204031479, 3329325298]

/-- The SHA-256 working state: eight 32-bit words. -/
structure H8 where
  a : Nat
  b : Nat
  c : Nat
  d : Nat
  e : Nat
  f : Nat
  g : Nat
  h : Nat
deriving Repr, DecidableEq

/-- The SHA-256 initial hash value (FIPS 180-4), in decimal. -/
def sha256H0 : H8 :=
  ⟨1779033703, 3144134277, 1013904242, 2773480762,
   1359893119, 2600822924, 528734635, 1541459225⟩

/-- SHA-256 message-schedule sigma0. -/
def ssig0 (x : Nat) : Nat := rotr 7 x ^^^ rotr 18 x ^^^ (x >>> 3)

/-- SHA-256 message-schedule sigma1. -/
def ssig1 (x : Nat) : Nat := rotr 17 x ^^^ rotr 19 x ^^^ (x >>> 10)

/-- SHA-256 compression Sigma0. -/
def bsig0 (x : Nat) : Nat := rotr 2 x ^^^ rotr 13 x ^^^ rotr 22 x

/-- SHA-256 compression Sigma1. -/
def bsig1 (x : Nat) : Nat := rotr 6 x ^^^ rotr 11 x ^^^ rotr 25 x

/-- SHA-256 padding: append `0x80`, zeros, and the 64-bit big-endian bit length,
so the padded message length is a multiple of 64 bytes. -/
def sha256Pad (msg : Bytes) : Bytes :=
  let L := msg.length
  let zeros := List.replicate ((119 - L % 64) % 64) 0
  let bitLen := 8 * L
  msg ++ [0x80] ++ zeros ++
    [w8 (bitLen >>> 56), w8 (bitLen >>> 48), w8 (bitLen >>> 40), w8 (bitLen >>> 32),
     w8 (bitLen >>> 24), w8 (bitLen >>> 16), w8 (bitLen >>> 8), w8 bitLen]

/-- Split a byte string into 64-byte blocks. -/
def toBlocks (l : Bytes) : List Bytes :=
  if l = [] then []
  else l.take 64 :: toBlocks (l.drop 64)
termination_by l.length
decreasing_by
  simp only [List.length_drop]
  have hne : l ≠ [] := by assumption
  have hpos : 0 < l.length := List.length_pos.mpr hne
  omega

/-- Combine four bytes into a big-endian 32-bit word. -/
def beWord (b0 b1 b2 b3 : Nat) : Nat := w8 b0 * 16777216 + w8 b1 * 65536 + w8 b2 * 256 + w8 b3

/-- Interpret a block as big-endian 32-bit words. -/
def toWords : Bytes → List Nat
  | b0 :: b1 :: b2 :: b3 :: rest => beWord b0 b1 b2 b3 :: toWords rest
  | _ => []

/-- Extend the 16 message words by `n` further schedule words. -/
def wextend (ws : List Nat) : Nat → List Nat
  | 0 => ws
  | n + 1 =>
    let prev := wextend ws n
    let len := prev.length
    prev ++ [w32 (ssig1 (prev.getD (len - 2) 0) + prev.getD (len - 7) 0 +
                   ssig0 (prev.getD (len - 15) 0) + prev.getD (len - 16) 0)]

/-- One SHA-256 compression round, given a schedule word paired with its constant. -/
def compressStep (st : H8) (kw : Nat × Nat) : H8 :=
  let s1 := bsig1 st.e
  let ch := (st.e &&& st.f) ^^^ (bnot32 st.e &&& st.g)
  let t1 := w32 (st.h + s1 + ch + kw.1 + kw.2)
  let s0 := bsig0 st.a
  let maj := (st.a &&& st.b) ^^^ (st.a &&& st.c) ^^^ (st.b &&& st.c)
  let t2 := w32 (s0 + maj)
  ⟨w32 (t1 + t2), st.a, st.b, st.c, w32 (st.d + t1), st.e, st.f, st.g⟩

/-- Process one 64-byte block: run 64 compression rounds and add the result
to the incoming hash value. -/
def sha256Block (hv : H8) (block : Bytes) : H8 :=
  let ws := wextend (toWords block) 48
  let st := (ws.zip sha256K).foldl compressStep hv
  ⟨w32 (hv.a + st.a), w32 (hv.b + st.b), w32 (hv.c + st.c), w32 (hv.d + st.d),
   w32 (hv.e + st.e), w32 (hv.f + st.f), w32 (hv.g + st.g), w32 (hv.h + st.h)⟩

/-- Serialize a 32-bit word as four big-endian bytes. -/
def wordBytes (x : Nat) : Bytes := [w8 (x >>> 24), w8 (x >>> 16), w8 (x >>> 8), w8 x]

/-- Serialize the final hash value as 32 bytes. -/
def digestBytes (hv : H8) : Bytes :=
  wordBytes hv.a ++ wordBytes hv.b ++ wordBytes hv.c ++ wordBytes hv.d ++
  wordBytes hv.e ++ wordBytes hv.f ++ wordBytes hv.g ++ wordBytes hv.h

/-- SHA-256 of a byte string (FIPS 180-4), as 32 digest bytes. -/
def sha256 (msg : Bytes) : Bytes :=
  digestBytes ((toBlocks (sha256Pad msg)).foldl sha256Block sha256H0)

/-- The lowercase hex digit table (Go encoding/hex hextable). -/
def hexDigits : List Char := "0123456789abcdef".data

/-- Hex-encode one byte as two digits: Go encoding/hex emits
hextable of b / 16 followed by hextable of b mod 16. -/
def hexByte (b : Nat) : List Char := [hexDigits.getD (b / 16) '0', hexDigits.getD (b % 16) '0']

/-- Go hex.EncodeToString: two lowercase hex digits per byte. -/
def hexEncode (bs : Bytes) : String := String.mk (bs.flatMap hexByte)

/-- The fields of a parsed X.509 certificate that the identity computation
can see: crypto/x509 RawSubjectPublicKeyInfo (the DER-encoded
SubjectPublicKeyInfo) plus the DER-encoded subject, carried along to show
the identity does not depend on it. -/
structure Certificate where
  rawSubjectPublicKeyInfo : Bytes
  rawSubject : Bytes
deriving DecidableEq

/-- The KES identity of a certificate, as computed by ofIdentityCmd and
newIdentityCmd: hex.EncodeToString of sha256.Sum256 of RawSubjectPublicKeyInfo. -/
def identityOf (cert : Certificate) : String :=
  hexEncode (sha256 cert.rawSubjectPublicKeyInfo)

/-- Modelled from the spec: HMAC-SHA-256 (RFC 2104), the PRF under the
HKDF derivation the envelope codec contract names; the key-engine code
itself is not under src/. The key is hashed if longer than the 64-byte
block, zero-padded to the block size, then inner and outer pads applied. -/
def hmacSha256 (key msg : Bytes) : Bytes :=
  let k0 := if 64 < key.length then sha256 key else key
  let kp := k0 ++ List.replicate (64 - k0.length) 0
  sha256 ((kp.map (fun b => b ^^^ 0x5c)) ++ sha256 ((kp.map (fun b => b ^^^ 0x36)) ++ msg))

/-- The HKDF info string "kes" as bytes. -/
def infoKes : Bytes := [107, 101, 115]

/-- Modelled from the spec: HKDF-SHA-256 (RFC 5869) producing one 32-byte
output block — extract with the given salt, then a single expand step with
the given info. The envelope codec derives the per-message key as
HKDF(key, salt = IV, info = "kes"). -/
def hkdfSha256 (ikm salt info : Bytes) : Bytes :=
  hmacSha256 (hmacSha256 salt ikm) (info ++ [1])

/-- Length-framed bytes: 4-byte big-endian length followed by the bytes,
making concatenated framed fields unambiguous. -/
def lenFrame (b : Bytes) : Bytes := wordBytes b.length ++ b

/-- Modelled from the spec: the authentication tag of the idealized AEAD —
AES-256-GCM and ChaCha20-Poly1305 are external primitives, so the AEAD is
modelled with its contract: a 32-byte tag binding key, nonce, associated
data and ciphertext, computed with HMAC-SHA-256 over framed fields. -/
def aeadTag (key nonce ad ct : Bytes) : Bytes :=
  hmacSha256 key (lenFrame nonce ++ lenFrame ad ++ lenFrame ct)

/-- Modelled from the spec: idealized AEAD seal — the sealed bytes are the
plaintext followed by the authentication tag. -/
def aeadSeal (key nonce ad pt : Bytes) : Bytes := pt ++ aeadTag key nonce ad pt

/-- Modelled from the spec: idealized AEAD open — split off the 32-byte tag,
recompute it and compare; any mismatch in key, nonce, associated data or
bytes fails. -/
def aeadOpen (key nonce ad ct : Bytes) : Option Bytes :=
  if ct.length < 32 then none
  else
    let pt := ct.take (ct.length - 32)
    if ct.drop (ct.length - 32) = aeadTag key nonce ad pt then some pt else none

/-- A KES error: an HTTP status code plus a message (kes.NewError). -/
structure Error where
  status : Nat
  message : String
deriving DecidableEq, Repr

/-- Modelled from the spec: kes.ErrNotAuthentic — decrypt failure, status 400. -/
def ErrNotAuthentic : Error := ⟨400, "not authentic"⟩

/-- Modelled from the spec: kes.ErrKeyNotFound — missing key, status 404. -/
def ErrKeyNotFound : Error := ⟨404, "key does not exist"⟩

/-- The AES-GCM algorithm identifier of the envelope wire contract. -/
def algoAESGCM : String := "AES-256-GCM-HMAC-SHA-256"

/-- The ChaCha20-Poly1305 algorithm identifier of the envelope wire contract. -/
def algoChaCha : String := "ChaCha20-Poly1305"

/-- The sealed-ciphertext envelope: algorithm tag, key-derivation IV,
per-message nonce, and the authenticated bytes. -/
structure Envelope where
  aead : String
  iv : Bytes
  nonce : Bytes
  bytes : Bytes
deriving DecidableEq

/-- Modelled from the spec: algorithm selection at seal time is a
deterministic environment-level choice — AES-GCM with hardware AES or FIPS,
ChaCha20-Poly1305 otherwise. -/
def algoOf (useAES : Bool) : String := if useAES then algoAESGCM else algoChaCha

/-- Modelled from the spec: envelope codec Seal. The fresh random `iv` and
`nonce` drawn from the CSPRNG are explicit arguments; the per-message key is
derived with HKDF-SHA-256 (salt = iv, info = "kes") and the plaintext sealed
under the AEAD with the context bound as associated data. -/
def envelopeSeal (useAES : Bool) (key pt ctx iv nonce : Bytes) : Envelope :=
  { aead := algoOf useAES, iv := iv, nonce := nonce,
    bytes := aeadSeal (hkdfSha256 key iv infoKes) nonce ctx pt }

/-- Modelled from the spec: envelope codec Open — re-derive the key from the
envelope's IV and open; an unknown algorithm tag or an authentication
failure (wrong key or context) fails with NotAuthentic. -/
def envelopeOpen (key : Bytes) (e : Envelope) (ctx : Bytes) : Except Error Bytes :=
  if e.aead = algoAESGCM ∨ e.aead = algoChaCha then
    match aeadOpen (hkdfSha256 key e.iv infoKes) e.nonce ctx e.bytes with
    | some pt => .ok pt
    | none => .error ErrNotAuthentic
  else .error ErrNotAuthentic

/-- A key store snapshot: a mapping from key name to 32-byte secret
(the Key Store contract). -/
abbrev KeyStore := List (String × Bytes)

/-- Look a key up by name in a store snapshot. -/
def storeGet (s : KeyStore) (name : String) : Option Bytes :=
  match s.find? (fun kv => kv.1 = name) with
  | some kv => some kv.2
  | none => none

/-- Modelled from the spec: key engine Encrypt — look up the named key and
seal the plaintext under it with the context bound. -/
def engineEncrypt (useAES : Bool) (s : KeyStore) (name : String)
    (pt ctx iv nonce : Bytes) : Except Error Envelope :=
  match storeGet s name with
  | none => .error ErrKeyNotFound
  | some k => .ok (envelopeSeal useAES k pt ctx iv nonce)

/-- Modelled from the spec: key engine Decrypt — look up the named key and
open the envelope; the context must equal the seal-time context or
authentication fails. -/
def engineDecrypt (s : KeyStore) (name : String) (e : Envelope)
    (ctx : Bytes) : Except Error Bytes :=
  match storeGet s name with
  | none => .error ErrKeyNotFound
  | some k => envelopeOpen k e ctx

/-- Parse the items of a glob character class after the optional negation
marker: single characters and lo-hi ranges, with backslash escapes, up to
the closing bracket, which requires at least one item (Go path.Match).
Returns the items and the rest of the pattern, or none when malformed. -/
def classItems : List Char → List (Char × Char) → Option (List (Char × Char) × List Char)
  | [], _ => none
  | ']' :: rest, acc => if acc = [] then none else some (acc.reverse, rest)
  | '\\' :: [], _ => none
  | '\\' :: lo :: '-' :: '\\' :: hi :: rest2, acc => classItems rest2 ((lo, hi) :: acc)
  | '\\' :: _ :: '-' :: [], _ => none
  | '\\' :: lo :: '-' :: hi :: rest2, acc =>
    if hi = ']' ∨ hi = '-' then none else classItems rest2 ((lo, hi) :: acc)
  | '\\' :: lo :: rest, acc => classItems rest ((lo, lo) :: acc)
  | lo :: '-' :: '\\' :: hi :: rest2, acc =>
    if lo = '-' then none else classItems rest2 ((lo, hi) :: acc)
  | _ :: '-' :: [], _ => none
  | lo :: '-' :: hi :: rest2, acc =>
    if lo = '-' ∨ hi = ']' ∨ hi = '-' then none else classItems rest2 ((lo, hi) :: acc)
  | lo :: rest, acc =>
    if lo = '-' then none else classItems rest ((lo, lo) :: acc)

/-- Is a character inside one of the class ranges? -/
def inClass (c : Char) (items : List (Char × Char)) : Bool :=
  items.any (fun range => range.1 ≤ c && c ≤ range.2)

/-- The fuel-bounded core of glob matching: every recursive call strictly
shrinks the pattern length plus string length, so fuel above that sum
never runs out; the fuel only makes the recursion structural. -/
def globMatchF : Nat → List Char → List Char → Bool
  | 0, _, _ => false
  | _ + 1, [], s => s.isEmpty
  | fuel + 1, '*' :: ps, s =>
    globMatchF fuel ps s ||
      (match s with
       | [] => false
       | c :: cs => c ≠ '/' && globMatchF fuel ('*' :: ps) cs)
  | _ + 1, '?' :: _, [] => false
  | fuel + 1, '?' :: ps, c :: cs => c ≠ '/' && globMatchF fuel ps cs
  | fuel + 1, '[' :: ps, s =>
    let negBody : Bool × List Char :=
      match ps with
      | '^' :: rest => (true, rest)
      | _ => (false, ps)
    match classItems negBody.2 [] with
    | none => false
    | some (items, rest) =>
      match s with
      | [] => false
      | c :: cs => inClass c items ≠ negBody.1 && globMatchF fuel rest cs
  | _ + 1, '\\' :: [], _ => false
  | fuel + 1, '\\' :: p :: ps, s =>
    match s with
    | [] => false
    | c :: cs => c = p && globMatchF fuel ps cs
  | fuel + 1, p :: ps, s =>
    match s with
    | [] => false
    | c :: cs => c = p && globMatchF fuel ps cs

/-- Glob matching as Go path.Match evaluates it on identity names:
`*` matches a run of non-separator characters, `?` one non-separator
character, `[...]` a character class with optional `^` negation, and a
backslash escapes the next pattern character. listIdentity discards the
ErrBadPattern error, so a malformed pattern simply does not match. -/
def globMatch (p s : List Char) : Bool := globMatchF (p.length + s.length + 1) p s

/-- A policy: ordered allow and deny glob pattern lists (kes.Policy). -/
structure Policy where
  allow : List String
  deny : List String
deriving DecidableEq, Repr

/-- An identity record: assigned policy name, admin flag, and creation
metadata (auth.IdentityInfo; created-at modelled as a number). -/
structure IdentityInfo where
  policy : String
  isAdmin : Bool
  createdAt : Nat
  createdBy : String
deriving DecidableEq, Repr

/-- An enclave: the key store, policy set and identity set it bundles
(sys.Enclave). -/
structure Enclave where
  keys : KeyStore
  policies : List (String × Policy)
  identities : List (String × IdentityInfo)
deriving DecidableEq

/-- The stateless vault: one fixed enclave and one fixed operator identity
(sys.statelessVault). It carries no seal flag. -/
structure Vault where
  enclave : Enclave
  operator : String
deriving DecidableEq

/-- NewStatelessVault: a vault whose single enclave is built from the given
key store, policy set and identity set. -/
def NewStatelessVault (operator : String) (keys : KeyStore)
    (policies : List (String × Policy))
    (identities : List (String × IdentityInfo)) : Vault :=
  ⟨⟨keys, policies, identities⟩, operator⟩

/-- Modelled from the spec: kes.ErrEnclaveNotFound, status 404. -/
def ErrEnclaveNotFound : Error := ⟨404, "enclave does not exist"⟩

/-- statelessVault.Seal: returns nil and leaves the vault untouched. -/
def Vault.Seal (v : Vault) : Option Error × Vault := (none, v)

/-- statelessVault.Unseal: returns nil and leaves the vault untouched. -/
def Vault.Unseal (v : Vault) : Option Error × Vault := (none, v)

/-- statelessVault.Operator: the fixed operator identity. -/
def Vault.Operator (v : Vault) : Except Error String := .ok v.operator

/-- statelessVault.CreateEnclave: always a 501 error, vault untouched
(the message spelling is the source's). -/
def Vault.CreateEnclave (v : Vault) (_name : String) : Except Error Enclave × Vault :=
  (.error ⟨501, "creating encalves is not supported"⟩, v)

/-- statelessVault.GetEnclave: the single enclave for the empty name,
ErrEnclaveNotFound otherwise. -/
def Vault.GetEnclave (v : Vault) (name : String) : Except Error Enclave :=
  if name = "" then .ok v.enclave else .error ErrEnclaveNotFound

/-- statelessVault.DeleteEnclave: always a 501 error, vault untouched. -/
def Vault.DeleteEnclave (v : Vault) (_name : String) : Option Error × Vault :=
  (some ⟨501, "deleting encalves is not supported"⟩, v)

/-- An operator call on the vault, for state-machine statements. -/
inductive VaultOp where
  | seal
  | unseal
  | createEnclave (name : String)
  | deleteEnclave (name : String)
deriving DecidableEq, Repr

/-- The vault state after one operator call. -/
def applyVaultOp (v : Vault) : VaultOp → Vault
  | .seal => (v.Seal).2
  | .unseal => (v.Unseal).2
  | .createEnclave n => (v.CreateEnclave n).2
  | .deleteEnclave n => (v.DeleteEnclave n).2

/-- The vault state after a sequence of operator calls. -/
def applyVaultOps (v : Vault) (ops : List VaultOp) : Vault :=
  ops.foldl applyVaultOp v

/-- The parts of an HTTP request the identity handlers inspect: method,
URL path, the effective caller identity (auth.Identify after TLS and the
proxy unwrap), the requested enclave name, and the request body size. -/
structure Request where
  method : String
  urlPath : String
  identity : String
  enclaveName : String
  bodySize : Nat
deriving DecidableEq

/-- The effectful backend behind the enclave's stores: every operation may
fail (NotFound, Unreachable). The ListIdentities iterator is modelled as
the sequence of names it yields plus the result its Close will return. -/
structure Backend where
  getIdentity : String → Except Error IdentityInfo
  getPolicy : String → Except Error Policy
  deleteIdentity : String → Option Error
  listIdentities : Except Error (List String)
  closeErr : Option Error

/-- Does the first list appear at the head of the second? -/
def strHasPfx (p s : List Char) : Bool :=
  match p with
  | [] => true
  | a :: as =>
    match s with
    | [] => false
    | b :: bs => a = b && strHasPfx as bs

/-- Modelled from the spec: path normalization — consecutive slashes
collapse to one. -/
def collapseSlashes : List Char → List Char
  | [] => []
  | ['/'] => ['/']
  | '/' :: '/' :: rest => collapseSlashes ('/' :: rest)
  | '/' :: c :: rest => '/' :: collapseSlashes (c :: rest)
  | c :: rest => c :: collapseSlashes rest

/-- Modelled from the spec: path normalization — trailing slashes are
trimmed, except that the root path stays the root. -/
def trimTrailing (l : List Char) : List Char :=
  let r := (l.reverse.dropWhile (· = '/')).reverse
  if r = [] ∧ l ≠ [] then ['/'] else r

/-- Modelled from the spec: the normalized form of a request path. -/
def normalizePath (p : String) : String :=
  String.mk (trimTrailing (collapseSlashes p.data))

/-- Modelled from the spec: the error normalizeURL writes for a URL that
does not canonicalize onto the route, status 400. -/
def errInvalidPath : Error := ⟨400, "invalid path"⟩

/-- Modelled from the spec: normalizeURL (internal/http helpers not under
src/) — the request URL must canonicalize to the handler's path prefix;
the normalized path replaces the request path for the rest of the handler. -/
def normalizeURL (p apiPath : String) : Except Error String :=
  let np := normalizePath p
  if strHasPfx apiPath.data np.data then .ok np else .error errInvalidPath

/-- Go strings.TrimPrefix: drop the leading occurrence when present. -/
def trimPfxStr (pfx s : String) : String :=
  if strHasPfx pfx.data s.data then String.mk (s.data.drop pfx.data.length) else s

/-- Go strings.TrimSpace: drop leading and trailing whitespace. -/
def trimSpace (s : String) : String :=
  String.mk (((s.data.dropWhile Char.isWhitespace).reverse.dropWhile Char.isWhitespace).reverse)

/-- Modelled from the spec: the error for an invalid name, status 400. -/
def errInvalidName : Error := ⟨400, "invalid name"⟩

/-- Modelled from the spec: name validation (validateName is not under
src/) — names are nonempty, at most 80 characters, from letters, digits,
'-' and '_' (the spec names a validation regex without reproducing it). -/
def isNameChar (c : Char) : Bool := c.isAlphanum || c = '-' || c = '_'

/-- Modelled from the spec: is a name valid? -/
def validName (s : String) : Bool :=
  s.length != 0 && s.length ≤ 80 && s.data.all isNameChar

/-- Modelled from the spec: validateName. -/
def validateName (s : String) : Option Error :=
  if validName s then none else some errInvalidName

/-- Modelled from the spec: the error for an invalid pattern, status 400. -/
def errInvalidPattern : Error := ⟨400, "invalid pattern"⟩

/-- Modelled from the spec: pattern characters — name characters plus the
glob metacharacters. -/
def isPatternChar (c : Char) : Bool :=
  isNameChar c || c ∈ ['*', '?', '[', ']', '^', '\\']

/-- Modelled from the spec: is a list pattern valid? -/
def validPattern (s : String) : Bool :=
  s.length != 0 && s.length ≤ 80 && s.data.all isPatternChar

/-- Modelled from the spec: validatePattern. -/
def validatePattern (s : String) : Option Error :=
  if validPattern s then none else some errInvalidPattern

/-- Modelled from the spec: lookupEnclave — resolve the request's enclave
name (empty in stateless mode) through Vault.GetEnclave. -/
def lookupEnclave (v : Vault) (r : Request) : Except Error Enclave :=
  v.GetEnclave r.enclaveName

/-- Modelled from the spec: a request path is permitted iff it matches at
least one allow pattern and no deny pattern; deny takes precedence. -/
def policyPermits (p : Policy) (path : String) : Bool :=
  (p.allow.any (fun a => globMatch a.data path.data)) &&
  !(p.deny.any (fun d => globMatch d.data path.data))

/-- Modelled from the spec: kes.ErrNotAuthorized, status 401. -/
def ErrNotAuthorized : Error := ⟨401, "not authorized"⟩

/-- Modelled from the spec: the policy-denied error, status 403. -/
def ErrForbidden : Error := ⟨403, "prohibited by policy"⟩

/-- Modelled from the spec: Enclave.VerifyRequest (internal/auth not under
src/) — an empty or unknown identity is NotAuthorized; admins bypass
policy; a dangling policy assignment is NotAuthorized; otherwise the
normalized path is evaluated against the policy, deny first. -/
def VerifyRequest (env : Backend) (r : Request) : Option Error :=
  if r.identity = "" then some ErrNotAuthorized
  else match env.getIdentity r.identity with
    | .error _ => some ErrNotAuthorized
    | .ok info =>
      if info.isAdmin then none
      else match env.getPolicy info.policy with
        | .error _ => some ErrNotAuthorized
        | .ok p =>
          if policyPermits p (normalizePath r.urlPath) then none else some ErrForbidden

/-- Modelled from the spec: errMethodNotAllowed, status 405. -/
def errMethodNotAllowed : Error := ⟨405, "method not allowed"⟩

/-- A KES server API descriptor (kes.API): HTTP method, path, maximum
accepted body size, timeout (modelled in seconds). -/
structure API where
  method : String
  path : String
  maxBody : Nat
  timeoutSeconds : Nat
deriving DecidableEq, Repr

/-- The route descriptor of GET /v1/identity/describe/ . -/
def apiDescribeIdentity : API := ⟨"GET", "/v1/identity/describe/", 0, 15⟩

/-- The route descriptor of GET /v1/identity/self/describe . -/
def apiSelfDescribeIdentity : API := ⟨"GET", "/v1/identity/self/describe", 0, 15⟩

/-- The route descriptor of DELETE /v1/identity/delete/ . -/
def apiDeleteIdentity : API := ⟨"DELETE", "/v1/identity/delete/", 0, 15⟩

/-- The route descriptor of GET /v1/identity/list/ . -/
def apiListIdentity : API := ⟨"GET", "/v1/identity/list/", 0, 15⟩

/-- The response record of the describe handler. -/
structure DescribeResponse where
  isAdmin : Bool
  policy : String
  createdAt : Nat
  createdBy : String
deriving DecidableEq, Repr

/-- The observable outcome of a describe run: the out-of-band HTTP error,
if any, and the JSON body written on success. -/
structure DescribeOut where
  httpErr : Option Error
  body : Option DescribeResponse
deriving DecidableEq, Repr

/-- The describeIdentity handler (identity-api.go): method gate, URL
normalization, body-cap installation (the body is never read), enclave
lookup, VerifyRequest, name extraction and validation, GetIdentity,
response. The audit and metrics wrappers do not change the observable
output and are omitted. -/
def describeIdentityHandler (v : Vault) (env : Backend) (r : Request) : DescribeOut :=
  if r.method ≠ "GET" then ⟨some errMethodNotAllowed, none⟩
  else match normalizeURL r.urlPath apiDescribeIdentity.path with
  | .error e => ⟨some e, none⟩
  | .ok np =>
    match lookupEnclave v r with
    | .error e => ⟨some e, none⟩
    | .ok _ =>
      match VerifyRequest env r with
      | some e => ⟨some e, none⟩
      | none =>
        let name := trimSpace (trimPfxStr apiDescribeIdentity.path np)
        match validateName name with
        | some e => ⟨some e, none⟩
        | none =>
          match env.getIdentity name with
          | .error e => ⟨some e, none⟩
          | .ok info => ⟨none, some ⟨info.isAdmin, info.policy, info.createdAt, info.createdBy⟩⟩

/-- One backend call, as recorded by the self-describe handler. -/
inductive BCall where
  | getIdentityCall (id : String)
  | getPolicyCall (name : String)
  | verifyRequestCall
deriving DecidableEq, Repr

/-- The response record of the self-describe handler: the caller's own
identity record plus the assigned policy inlined. -/
structure SelfDescribeResponse where
  identity : String
  isAdmin : Bool
  policyName : String
  createdAt : Nat
  createdBy : String
  allow : List String
  deny : List String
deriving DecidableEq, Repr

/-- The observable outcome of a self-describe run, with the ordered list
of backend calls the handler made. -/
structure SelfDescribeOut where
  httpErr : Option Error
  body : Option SelfDescribeResponse
  calls : List BCall
deriving DecidableEq, Repr

/-- The selfDescribeIdentity handler (identity-api.go): method gate, URL
normalization, body-cap installation, enclave lookup, then directly
GetIdentity on the caller's own identity — there is no VerifyRequest
stage — and, for non-admins only, GetPolicy on the assigned policy to
inline it; an admin keeps the zero policy (empty allow and deny lists). -/
def selfDescribeIdentityHandler (v : Vault) (env : Backend) (r : Request) : SelfDescribeOut :=
  if r.method ≠ "GET" then ⟨some errMethodNotAllowed, none, []⟩
  else match normalizeURL r.urlPath apiSelfDescribeIdentity.path with
  | .error e => ⟨some e, none, []⟩
  | .ok _ =>
    match lookupEnclave v r with
    | .error e => ⟨some e, none, []⟩
    | .ok _ =>
      match env.getIdentity r.identity with
      | .error e => ⟨some e, none, [.getIdentityCall r.identity]⟩
      | .ok info =>
        if info.isAdmin then
          ⟨none,
           some ⟨r.identity, info.isAdmin, info.policy, info.createdAt, info.createdBy, [], []⟩,
           [.getIdentityCall r.identity]⟩
        else match env.getPolicy info.policy with
          | .error e => ⟨some e, none, [.getIdentityCall r.identity, .getPolicyCall info.policy]⟩
          | .ok p =>
            ⟨none,
             some ⟨r.identity, info.isAdmin, info.policy, info.createdAt, info.createdBy,
                   p.allow, p.deny⟩,
             [.getIdentityCall r.identity, .getPolicyCall info.policy]⟩

/-- The observable outcome of a delete run. -/
structure DeleteOut where
  httpErr : Option Error
  wroteOK : Bool
deriving DecidableEq, Repr

/-- The deleteIdentity handler (identity-api.go): method gate, URL
normalization, body-cap installation, enclave lookup, VerifyRequest, name
extraction and validation, DeleteIdentity, 200 on success. -/
def deleteIdentityHandler (v : Vault) (env : Backend) (r : Request) : DeleteOut :=
  if r.method ≠ "DELETE" then ⟨some errMethodNotAllowed, false⟩
  else match normalizeURL r.urlPath apiDeleteIdentity.path with
  | .error e => ⟨some e, false⟩
  | .ok np =>
    match lookupEnclave v r with
    | .error e => ⟨some e, false⟩
    | .ok _ =>
      match VerifyRequest env r with
      | some e => ⟨some e, false⟩
      | none =>
        let name := trimSpace (trimPfxStr apiDeleteIdentity.path np)
        match validateName name with
        | some e => ⟨some e, false⟩
        | none =>
          match env.deleteIdentity name with
          | some e => ⟨some e, false⟩
          | none => ⟨none, true⟩

/-- One NDJSON line of the list response: an identity record, or the
in-band record of shape with only the error field set. -/
inductive ListRecord where
  | info (id : String) (isAdmin : Bool) (policy : String) (createdAt : Nat) (createdBy : String)
  | failure (msg : String)
deriving DecidableEq, Repr

/-- The observable outcome of a list run: the out-of-band HTTP error if
any, the NDJSON records written in order, and whether the store iterator
was closed before the handler returned. -/
structure ListOut where
  httpErr : Option Error
  records : List ListRecord
  closed : Bool
deriving DecidableEq, Repr

/-- The NDJSON record the loop writes for one identity. -/
def recordOf (id : String) (i : IdentityInfo) : ListRecord :=
  .info id i.isAdmin i.policy i.createdAt i.createdBy

/-- The iteration loop of listIdentity: names that do not match the
pattern are skipped; a failing GetIdentity writes an in-band error record
and returns without closing the iterator; at exhaustion Close is called,
and its error goes in-band when a record was already written, out-of-band
otherwise. -/
def listLoop (env : Backend) (pattern : String) :
    List String → Bool → List ListRecord → ListOut
  | [], hasWritten, acc =>
    match env.closeErr with
    | some e =>
      if hasWritten then ⟨none, acc ++ [.failure e.message], true⟩
      else ⟨some e, acc, true⟩
    | none => ⟨none, acc, true⟩
  | id :: rest, hasWritten, acc =>
    if globMatch pattern.data id.data then
      match env.getIdentity id with
      | .error e => ⟨none, acc ++ [.failure e.message], false⟩
      | .ok info => listLoop env pattern rest true (acc ++ [recordOf id info])
    else listLoop env pattern rest hasWritten acc

/-- The listIdentity handler (identity-api.go): method gate, URL
normalization, body-cap installation, enclave lookup, VerifyRequest,
pattern extraction and validation, ListIdentities, then the loop. -/
def listIdentityHandler (v : Vault) (env : Backend) (r : Request) : ListOut :=
  if r.method ≠ "GET" then ⟨some errMethodNotAllowed, [], false⟩
  else match normalizeURL r.urlPath apiListIdentity.path with
  | .error e => ⟨some e, [], false⟩
  | .ok np =>
    match lookupEnclave v r with
    | .error e => ⟨some e, [], false⟩
    | .ok _ =>
      match VerifyRequest env r with
      | some e => ⟨some e, [], false⟩
      | none =>
        let pattern := trimSpace (trimPfxStr apiListIdentity.path np)
        match validatePattern pattern with
        | some e => ⟨some e, [], false⟩
        | none =>
          match env.listIdentities with
          | .error e => ⟨some e, [], false⟩
          | .ok ids => listLoop env pattern ids false []

/-- Is every character of the string a lowercase hex digit? -/
def isLowerHexString (s : String) : Bool := s.data.all (fun c => c ∈ hexDigits)

/-- A fixture non-admin identity record, assigned to policy "p1". -/
def fixInfo : IdentityInfo := ⟨"p1", false, 1, "boss"⟩

/-- A fixture admin identity record. -/
def fixAdminInfo : IdentityInfo := ⟨"", true, 1, ""⟩

/-- A fixture enclave holding policy "p1" and the admin identity "ada". -/
def fixEnclave : Enclave := ⟨[], [("p1", ⟨["/v1/identity/list/*"], []⟩)], [("ada", fixAdminInfo)]⟩

/-- A fixture stateless vault around the fixture enclave. -/
def fixVault : Vault := ⟨fixEnclave, "op"⟩

/-- A fixture backend: "ada" is admin, "bea" is a non-admin assigned to
"p1", which exists; the iterator yields both and Close succeeds. -/
def fixBackend : Backend :=
  { getIdentity := fun id =>
      if id = "ada" then .ok fixAdminInfo
      else if id = "bea" then .ok fixInfo
      else .error ⟨404, "identity does not exist"⟩
  , getPolicy := fun nm =>
      if nm = "p1" then .ok ⟨["/v1/identity/list/*"], []⟩
      else .error ⟨404, "policy does not exist"⟩
  , deleteIdentity := fun _ => none
  , listIdentities := .ok ["ada", "bea"]
  , closeErr := none }

/-- A fixture backend where the caller "ada" is admin but the lookup of
the listed identity "bea" fails, driving the list loop's error path. -/
def fixFailBackend : Backend :=
  { getIdentity := fun id =>
      if id = "ada" then .ok fixAdminInfo else .error ⟨503, "store unreachable"⟩
  , getPolicy := fun _ => .error ⟨404, "policy does not exist"⟩
  , deleteIdentity := fun _ => none
  , listIdentities := .ok ["bea"]
  , closeErr := none }

/-- A fixture backend where "bea" is a non-admin whose assigned policy is
missing: a dangling policy assignment. -/
def fixDanglingBackend : Backend :=
  { getIdentity := fun id =>
      if id = "bea" then .ok fixInfo else .error ⟨404, "identity does not exist"⟩
  , getPolicy := fun _ => .error ⟨404, "policy does not exist"⟩
  , deleteIdentity := fun _ => none
  , listIdentities := .ok []
  , closeErr := none }

/-- A fixture backend whose iterator Close fails while every lookup
succeeds: "ada" is admin, "bea" non-admin, both listed. -/
def fixCloseErrBackend : Backend :=
  { getIdentity := fun id =>
      if id = "ada" then .ok fixAdminInfo
      else if id = "bea" then .ok fixInfo
      else .error ⟨404, "identity does not exist"⟩
  , getPolicy := fun _ => .error ⟨404, "policy does not exist"⟩
  , deleteIdentity := fun _ => none
  , listIdentities := .ok ["ada", "bea"]
  , closeErr := some ⟨503, "close failed"⟩ }

/-- A fixture describe request for identity "bea" by the admin caller. -/
def fixDescribeReq : Request := ⟨"GET", "/v1/identity/describe/bea", "ada", "", 0⟩

/-- The describe fixture request with a body of 1 MiB + 1 bytes, above the
route's MaxBody of 0. -/
def fixBigBodyReq : Request := ⟨"GET", "/v1/identity/describe/bea", "ada", "", 1048577⟩

/-- A fixture list request by the admin caller with the match-all pattern. -/
def fixListReq : Request := ⟨"GET", "/v1/identity/list/*", "ada", "", 0⟩

/-- A fixture self-describe request by caller "bea". -/
def fixSelfReq : Request := ⟨"GET", "/v1/identity/self/describe", "bea", "", 0⟩

end Kes

namespace Kes

theorem wordBytes_length (x : Nat) : (wordBytes x).length = 4 := rfl

theorem digestBytes_length (hv : H8) : (digestBytes hv).length = 32 := by
  simp [digestBytes, wordBytes]

/-- SHA-256 always produces exactly 32 bytes. -/
theorem sha256_length (msg : Bytes) : (sha256 msg).length = 32 :=
  digestBytes_length _

theorem wordBytes_lt (x : Nat) : ∀ b ∈ wordBytes x, b < 256 := by
  simp only [wordBytes, w8, List.mem_cons, List.not_mem_nil, or_false]
  rintro b (rfl | rfl | rfl | rfl) <;> exact Nat.mod_lt _ (by omega)

/-- Every SHA-256 digest byte is a byte value. -/
theorem sha256_bytes_lt (msg : Bytes) : ∀ b ∈ sha256 msg, b < 256 := by
  intro b hb
  simp only [sha256, digestBytes, List.mem_append] at hb
  rcases hb with ((((((h | h) | h) | h) | h) | h) | h) | h <;> exact wordBytes_lt _ _ h

/-- HMAC-SHA-256 always produces exactly 32 bytes. -/
theorem hmacSha256_length (key msg : Bytes) : (hmacSha256 key msg).length = 32 :=
  sha256_length _

theorem hexDigit_mem (n : Nat) : hexDigits.getD n '0' ∈ hexDigits := by
  rcases Nat.lt_or_ge n 16 with h | h
  · interval_cases n <;> decide
  · rw [List.getD_eq_default]
    · decide
    · simpa [hexDigits] using h

theorem hexEncode_mem (bs : Bytes) : ∀ c ∈ (hexEncode bs).data, c ∈ hexDigits := by
  intro c hc
  simp only [hexEncode, List.mem_flatMap] at hc
  obtain ⟨b, _, hb⟩ := hc
  simp only [hexByte, List.mem_cons, List.not_mem_nil, or_false] at hb
  rcases hb with rfl | rfl <;> exact hexDigit_mem _

theorem hexEncode_length (bs : Bytes) : (hexEncode bs).length = 2 * bs.length := by
  simp only [hexEncode, String.length]
  induction bs with
  | nil => rfl
  | cons b rest ih =>
    simp only [List.flatMap_cons, List.length_append, hexByte, List.length_cons,
      List.length_nil, List.length_cons] at *
    omega

/-- Opening an idealized AEAD seal with the same key, nonce and associated
data returns the plaintext. -/
theorem aeadOpen_aeadSeal (key nonce ad pt : Bytes) :
    aeadOpen key nonce ad (aeadSeal key nonce ad pt) = some pt := by
  have htag : (aeadTag key nonce ad pt).length = 32 := hmacSha256_length _ _
  have hlen : (aeadSeal key nonce ad pt).length = pt.length + 32 := by
    simp [aeadSeal, htag]
  have htake : (aeadSeal key nonce ad pt).take (pt.length + 32 - 32) = pt := by
    show (pt ++ aeadTag key nonce ad pt).take (pt.length + 32 - 32) = pt
    rw [Nat.add_sub_cancel, List.take_append_of_le_length (Nat.le_refl _), List.take_length]
  have hdrop : (aeadSeal key nonce ad pt).drop (pt.length + 32 - 32) =
      aeadTag key nonce ad pt := by
    show (pt ++ aeadTag key nonce ad pt).drop (pt.length + 32 - 32) = aeadTag key nonce ad pt
    rw [Nat.add_sub_cancel, List.drop_append_of_le_length (Nat.le_refl _), List.drop_length,
      List.nil_append]
  rw [aeadOpen, hlen, if_neg (by omega), htake, hdrop, if_pos rfl]

/-- Opening an envelope sealed under the same key with the same context
succeeds with the original plaintext, whichever algorithm was selected. -/
theorem envelopeOpen_envelopeSeal (useAES : Bool) (key pt ctx iv nonce : Bytes) :
    envelopeOpen key (envelopeSeal useAES key pt ctx iv nonce) ctx = .ok pt := by
  have halgo : algoOf useAES = algoAESGCM ∨ algoOf useAES = algoChaCha := by
    cases useAES <;> simp [algoOf]
  simp [envelopeOpen, envelopeSeal, halgo, aeadOpen_aeadSeal]

/-- No operator call changes the stateless vault. -/
theorem applyVaultOp_fixed (v : Vault) (op : VaultOp) : applyVaultOp v op = v := by
  cases op <;> rfl

/-- No sequence of operator calls changes the stateless vault. -/
theorem applyVaultOps_fixed (v : Vault) (ops : List VaultOp) : applyVaultOps v ops = v := by
  induction ops with
  | nil => rfl
  | cons op rest ih =>
    show applyVaultOps (applyVaultOp v op) rest = v
    rw [applyVaultOp_fixed]
    exact ih

/-- Claim C1: for every stored key, plaintext and context, decrypting the
result of encrypting the plaintext under the named key with that context,
using the same key name and the same context, returns exactly the
plaintext. -/
theorem c1_decrypt_encrypt_roundtrip (useAES : Bool) (s : KeyStore) (name : String)
    (k pt ctx iv nonce : Bytes) (hk : storeGet s name = some k) :
    ∃ e, engineEncrypt useAES s name pt ctx iv nonce = .ok e ∧
      engineDecrypt s name e ctx = .ok pt := by
  refine ⟨envelopeSeal useAES k pt ctx iv nonce, ?_, ?_⟩
  · simp [engineEncrypt, hk]
  · simp [engineDecrypt, hk, envelopeOpen_envelopeSeal]

/-- Witness for C1: the round trip at a concrete store, key, plaintext,
context, IV and nonce. -/
theorem c1_roundtrip_witness :
    ∃ e, engineEncrypt true [("t", List.replicate 32 0)] "t" [72, 105] [99] [1, 2] [3, 4] = .ok e ∧
      engineDecrypt [("t", List.replicate 32 0)] "t" e [99] = .ok [72, 105] :=
  c1_decrypt_encrypt_roundtrip true _ "t" _ _ _ _ _ rfl

/-- Claim C2 counterexample: on the stateless vault a Seal call reports
success, yet a subsequent ordinary request — an identity describe, which
is neither unseal nor status — still succeeds instead of failing with
Sealed. -/
theorem c2_sealed_gate_counterexample :
    (fixVault.Seal).1 = none ∧
    describeIdentityHandler (fixVault.Seal).2 fixBackend fixDescribeReq =
      ⟨none, some ⟨false, "p1", 1, "boss"⟩⟩ :=
  ⟨rfl, by decide⟩

/-- Claim C2 amended: on the stateless vault, Seal and Unseal always
succeed and are no-ops — the vault carries no seal state, no sequence of
operator calls changes it, and request handling is identical before and
after Seal, so no request ever fails with Sealed. -/
theorem c2_stateless_vault_never_seals (v : Vault) (env : Backend) (r : Request)
    (ops : List VaultOp) :
    v.Seal = (none, v) ∧ v.Unseal = (none, v) ∧ applyVaultOps v ops = v ∧
    describeIdentityHandler (v.Seal).2 env r = describeIdentityHandler v env r ∧
    listIdentityHandler (v.Seal).2 env r = listIdentityHandler v env r :=
  ⟨rfl, rfl, applyVaultOps_fixed v ops, rfl, rfl⟩

/-- Claim C3: on the stateless vault, GetEnclave returns the single
default enclave exactly for the empty name and EnclaveNotFound for every
non-empty name; the default enclave stays the one the vault was
constructed with under any sequence of operator calls. -/
theorem c3_get_enclave (op : String) (ks : KeyStore) (ps : List (String × Policy))
    (ids : List (String × IdentityInfo)) (ops : List VaultOp) (n : String) (hn : n ≠ "") :
    (applyVaultOps (NewStatelessVault op ks ps ids) ops).GetEnclave "" = .ok ⟨ks, ps, ids⟩ ∧
    (applyVaultOps (NewStatelessVault op ks ps ids) ops).GetEnclave n =
      .error ErrEnclaveNotFound := by
  rw [applyVaultOps_fixed]
  exact ⟨rfl, by simp [NewStatelessVault, Vault.GetEnclave, hn]⟩

/-- Witness for C3: a concrete vault, a seal and a create-enclave call in
between, the empty name and the name "other". -/
theorem c3_get_enclave_witness :
    (applyVaultOps (NewStatelessVault "op" [] [] []) [.seal, .createEnclave "x"]).GetEnclave "" =
      .ok ⟨[], [], []⟩ ∧
    (applyVaultOps (NewStatelessVault "op" [] [] []) [.seal, .createEnclave "x"]).GetEnclave
      "other" = .error ErrEnclaveNotFound :=
  c3_get_enclave "op" [] [] [] [.seal, .createEnclave "x"] "other" (by decide)

/-- Claim C4: the computed identity is the SHA-256 of the certificate's
DER-encoded SubjectPublicKeyInfo rendered as a lowercase hex string — 64
lowercase hex digits — and any two certificates with identical
SubjectPublicKeyInfo yield identical identities. -/
theorem c4_identity_of_spki :
    (∀ cert : Certificate,
       identityOf cert = hexEncode (sha256 cert.rawSubjectPublicKeyInfo) ∧
       isLowerHexString (identityOf cert) = true ∧ (identityOf cert).length = 64) ∧
    (∀ c1 c2 : Certificate,
       c1.rawSubjectPublicKeyInfo = c2.rawSubjectPublicKeyInfo →
       identityOf c1 = identityOf c2) := by
  constructor
  · intro cert
    refine ⟨rfl, ?_, ?_⟩
    · simp only [isLowerHexString, List.all_eq_true, decide_eq_true_eq]
      intro c hc
      exact hexEncode_mem _ c hc
    · rw [identityOf, hexEncode_length, sha256_length]
  · intro c1 c2 h
    rw [identityOf, identityOf, h]

/-- Witness for C4: two concrete certificates sharing the public key bytes
but with different subjects get the same identity. -/
theorem c4_identity_witness :
    identityOf ⟨[1, 2], [9]⟩ = identityOf ⟨[1, 2], [8]⟩ :=
  c4_identity_of_spki.2 ⟨[1, 2], [9]⟩ ⟨[1, 2], [8]⟩ rfl

/-- When every lookup succeeds and Close will succeed, the list loop
appends one record per matching identity, in order, and closes the
iterator with no error. -/
theorem listLoop_ok (env : Backend) (pattern : String) (f : String → IdentityInfo)
    (hclose : env.closeErr = none) :
    ∀ (ids : List String) (hasW : Bool) (acc : List ListRecord),
      (∀ id ∈ ids, env.getIdentity id = .ok (f id)) →
      listLoop env pattern ids hasW acc =
        ⟨none, acc ++ (ids.filter fun id => globMatch pattern.data id.data).map
          (fun id => recordOf id (f id)), true⟩ := by
  intro ids
  induction ids with
  | nil => intro hasW acc _; simp [listLoop, hclose]
  | cons id rest ih =>
    intro hasW acc hf
    have hid : env.getIdentity id = .ok (f id) := hf id (List.mem_cons_self id rest)
    have hrest : ∀ x ∈ rest, env.getIdentity x = .ok (f x) :=
      fun x hx => hf x (List.mem_cons_of_mem _ hx)
    by_cases hmt : globMatch pattern.data id.data
    · simp only [listLoop, hmt, if_true, hid, ih true _ hrest, List.filter_cons_of_pos,
        List.map_cons, List.append_assoc, List.singleton_append]
    · simp only [listLoop, hmt, if_false, ih hasW acc hrest, List.filter_cons_of_neg,
        Bool.false_eq_true, not_false_eq_true]

/-- When every lookup succeeds but Close will fail, the list loop reports
the close error in-band exactly when something was written (a record
before the loop or a matching identity inside it) and out-of-band
otherwise; the iterator is closed either way. -/
theorem listLoop_close_err (env : Backend) (pattern : String) (f : String → IdentityInfo)
    (e : Error) (hclose : env.closeErr = some e) :
    ∀ (ids : List String) (hasW : Bool) (acc : List ListRecord),
      (∀ id ∈ ids, env.getIdentity id = .ok (f id)) →
      listLoop env pattern ids hasW acc =
        if hasW = false ∧ (ids.filter fun id => globMatch pattern.data id.data) = []
        then ⟨some e, acc, true⟩
        else ⟨none, acc ++ (ids.filter fun id => globMatch pattern.data id.data).map
               (fun id => recordOf id (f id)) ++ [.failure e.message], true⟩ := by
  intro ids
  induction ids with
  | nil =>
    intro hasW acc _
    cases hasW <;> simp [listLoop, hclose]
  | cons id rest ih =>
    intro hasW acc hf
    have hid : env.getIdentity id = .ok (f id) := hf id (List.mem_cons_self id rest)
    have hrest : ∀ x ∈ rest, env.getIdentity x = .ok (f x) :=
      fun x hx => hf x (List.mem_cons_of_mem _ hx)
    by_cases hmt : globMatch pattern.data id.data
    · rw [List.filter_cons_of_pos (by simpa using hmt)]
      simp only [listLoop, hmt, if_true, hid, ih true _ hrest]
      simp [List.append_assoc]
    · rw [List.filter_cons_of_neg (by simpa using hmt)]
      simp only [listLoop, hmt, if_false, ih hasW acc hrest, Bool.false_eq_true,
        not_false_eq_true]

/-- When the lookup of the first matching identity after a prefix of
successful ones fails, the loop writes the successful records, appends an
in-band error record, and returns without closing the iterator. -/
theorem listLoop_lookup_fail (env : Backend) (pattern : String) (f : String → IdentityInfo)
    (bad : String) (e : Error) (rest : List String)
    (hbm : globMatch pattern.data bad.data = true)
    (hbad : env.getIdentity bad = .error e) :
    ∀ (pre : List String) (hasW : Bool) (acc : List ListRecord),
      (∀ id ∈ pre, env.getIdentity id = .ok (f id)) →
      listLoop env pattern (pre ++ bad :: rest) hasW acc =
        ⟨none, acc ++ (pre.filter fun id => globMatch pattern.data id.data).map
          (fun id => recordOf id (f id)) ++ [.failure e.message], false⟩ := by
  intro pre
  induction pre with
  | nil =>
    intro hasW acc _
    simp [listLoop, hbm, hbad]
  | cons id rest2 ih =>
    intro hasW acc hf
    have hid : env.getIdentity id = .ok (f id) := hf id (List.mem_cons_self id rest2)
    have hrest : ∀ x ∈ rest2, env.getIdentity x = .ok (f x) :=
      fun x hx => hf x (List.mem_cons_of_mem _ hx)
    by_cases hmt : globMatch pattern.data id.data
    · rw [List.filter_cons_of_pos (by simpa using hmt)]
      have step : listLoop env pattern ((id :: rest2) ++ bad :: rest) hasW acc =
          listLoop env pattern (rest2 ++ bad :: rest) true (acc ++ [recordOf id (f id)]) := by
        simp [listLoop, hmt, hid]
      rw [step, ih true (acc ++ [recordOf id (f id)]) hrest]
      simp
    · rw [List.filter_cons_of_neg (by simpa using hmt)]
      have step : listLoop env pattern ((id :: rest2) ++ bad :: rest) hasW acc =
          listLoop env pattern (rest2 ++ bad :: rest) hasW acc := by
        simp [listLoop, hmt]
      rw [step, ih hasW acc hrest]

/-- A well-formed, authorized list request reaches the iteration loop with
the extracted pattern and the iterator's names. -/
theorem listIdentityHandler_run (v : Vault) (env : Backend) (r : Request)
    (np pattern : String) (ids : List String)
    (hm : r.method = "GET")
    (hurl : normalizeURL r.urlPath apiListIdentity.path = .ok np)
    (henc : r.enclaveName = "")
    (hver : VerifyRequest env r = none)
    (hpat : trimSpace (trimPfxStr apiListIdentity.path np) = pattern)
    (hvp : validatePattern pattern = none)
    (hlist : env.listIdentities = .ok ids) :
    listIdentityHandler v env r = listLoop env pattern ids false [] := by
  unfold listIdentityHandler
  simp [hm, hurl, henc, lookupEnclave, Vault.GetEnclave, hver, hpat, hvp, hlist]

/-- Claim C8: CreateEnclave and DeleteEnclave on the stateless vault fail
with HTTP status 501 for every input and leave the vault — its single
enclave and its operator identity — unchanged. -/
theorem c8_enclave_ops_not_implemented (v : Vault) (n m : String) :
    (v.CreateEnclave n).1 = .error ⟨501, "creating encalves is not supported"⟩ ∧
    (v.CreateEnclave n).2 = v ∧
    (v.DeleteEnclave m).1 = some ⟨501, "deleting encalves is not supported"⟩ ∧
    (v.DeleteEnclave m).2 = v :=
  ⟨rfl, rfl, rfl, rfl⟩

/-- Claim C5: for every authorized list request with a valid pattern whose
iterator enumerates the identity set and whose per-identity lookups and
Close succeed, the emitted stream contains exactly one record for each
identity matching the pattern, in iterator order, and no record for any
identity that does not match. -/
theorem c5_list_filters_by_pattern (v : Vault) (env : Backend) (r : Request)
    (np pattern : String) (ids : List String) (f : String → IdentityInfo)
    (hm : r.method = "GET")
    (hurl : normalizeURL r.urlPath apiListIdentity.path = .ok np)
    (henc : r.enclaveName = "")
    (hver : VerifyRequest env r = none)
    (hpat : trimSpace (trimPfxStr apiListIdentity.path np) = pattern)
    (hvp : validatePattern pattern = none)
    (hlist : env.listIdentities = .ok ids)
    (_hnd : ids.Nodup)
    (hf : ∀ id ∈ ids, env.getIdentity id = .ok (f id))
    (hclose : env.closeErr = none) :
    listIdentityHandler v env r =
      ⟨none, (ids.filter fun id => globMatch pattern.data id.data).map
        (fun id => recordOf id (f id)), true⟩ := by
  rw [listIdentityHandler_run v env r np pattern ids hm hurl henc hver hpat hvp hlist]
  simpa using listLoop_ok env pattern f hclose ids false [] hf

/-- Witness for C5: the fixture list request over the two-identity backend
with the match-all pattern yields one record per identity, in order. -/
theorem c5_list_filters_witness :
    listIdentityHandler fixVault fixBackend fixListReq =
      ⟨none, (["ada", "bea"].filter fun id => globMatch "*".data id.data).map
        (fun id => recordOf id (if id = "ada" then fixAdminInfo else fixInfo)), true⟩ :=
  c5_list_filters_by_pattern fixVault fixBackend fixListReq "/v1/identity/list/*" "*"
    ["ada", "bea"] (fun id => if id = "ada" then fixAdminInfo else fixInfo)
    rfl rfl rfl rfl rfl rfl rfl (by decide)
    (by intro id hid; fin_cases hid <;> rfl) rfl

/-- Claim C6 counterexample: a per-identity lookup failure with no record
yet written is reported as an in-band error record — the only line of the
stream — with no out-of-band HTTP error, contradicting the claim that an
error before the first record is reported out-of-band and never in-band. -/
theorem c6_inband_error_before_first_record :
    listIdentityHandler fixVault fixFailBackend fixListReq =
      ⟨none, [.failure "store unreachable"], false⟩ := by
  decide

/-- Claim C6 amended: an error from closing the iterator is folded in-band
exactly when at least one record was already written and reported
out-of-band as the HTTP error otherwise; an error from a per-identity
lookup, however, is always written as an in-band trailing error record,
even before the first record. -/
theorem c6_error_record_folding (v : Vault) (env : Backend) (r : Request)
    (np pattern : String)
    (hm : r.method = "GET")
    (hurl : normalizeURL r.urlPath apiListIdentity.path = .ok np)
    (henc : r.enclaveName = "")
    (hver : VerifyRequest env r = none)
    (hpat : trimSpace (trimPfxStr apiListIdentity.path np) = pattern)
    (hvp : validatePattern pattern = none) :
    (∀ (ids : List String) (f : String → IdentityInfo) (e : Error),
       env.listIdentities = .ok ids → env.closeErr = some e →
       (∀ id ∈ ids, env.getIdentity id = .ok (f id)) →
       listIdentityHandler v env r =
         if (ids.filter fun id => globMatch pattern.data id.data) = []
         then ⟨some e, [], true⟩
         else ⟨none, (ids.filter fun id => globMatch pattern.data id.data).map
                 (fun id => recordOf id (f id)) ++ [.failure e.message], true⟩) ∧
    (∀ (pre : List String) (bad : String) (rest : List String)
       (f : String → IdentityInfo) (e : Error),
       env.listIdentities = .ok (pre ++ bad :: rest) →
       (∀ id ∈ pre, env.getIdentity id = .ok (f id)) →
       globMatch pattern.data bad.data = true →
       env.getIdentity bad = .error e →
       listIdentityHandler v env r =
         ⟨none, (pre.filter fun id => globMatch pattern.data id.data).map
           (fun id => recordOf id (f id)) ++ [.failure e.message], false⟩) := by
  constructor
  · intro ids f e hlist hclose hf
    rw [listIdentityHandler_run v env r np pattern ids hm hurl henc hver hpat hvp hlist]
    rw [listLoop_close_err env pattern f e hclose ids false [] hf]
    by_cases hemp : (ids.filter fun id => globMatch pattern.data id.data) = [] <;>
      simp [hemp]
  · intro pre bad rest f e hlist hpre hbm hbad
    rw [listIdentityHandler_run v env r np pattern (pre ++ bad :: rest)
      hm hurl henc hver hpat hvp hlist]
    simpa using listLoop_lookup_fail env pattern f bad e rest hbm hbad pre false [] hpre

/-- Witness for C6: on the fixture backend whose Close fails after both
records were written, the close error is folded in-band. -/
theorem c6_error_record_folding_witness :
    listIdentityHandler fixVault fixCloseErrBackend fixListReq =
      if ((["ada", "bea"].filter fun id => globMatch "*".data id.data) = [])
      then ⟨some ⟨503, "close failed"⟩, [], true⟩
      else ⟨none, (["ada", "bea"].filter fun id => globMatch "*".data id.data).map
              (fun id => recordOf id (if id = "ada" then fixAdminInfo else fixInfo)) ++
            [.failure "close failed"], true⟩ :=
  (c6_error_record_folding fixVault fixCloseErrBackend fixListReq "/v1/identity/list/*" "*"
    rfl rfl rfl rfl rfl rfl).1 ["ada", "bea"]
    (fun id => if id = "ada" then fixAdminInfo else fixInfo) ⟨503, "close failed"⟩
    rfl rfl (by intro id hid; fin_cases hid <;> rfl)

/-- Claim C9: the code violates the close-before-return obligation — at
the concrete failing input, where the lookup of the first matching
identity fails mid-iteration, the handler returns without having closed
the store iterator. -/
theorem c9_iterator_not_closed_on_early_return :
    (listIdentityHandler fixVault fixFailBackend fixListReq).closed = false := by
  decide

/-- Claim C7 counterexample: a describe request whose body exceeds the
route's MaxBody of 0 by over a mebibyte is served normally — the handler
performs all its work and succeeds instead of failing with TooLarge. -/
theorem c7_oversize_body_served :
    apiDescribeIdentity.maxBody = 0 ∧ fixBigBodyReq.bodySize = 1048577 ∧
    describeIdentityHandler fixVault fixBackend fixBigBodyReq =
      ⟨none, some ⟨false, "p1", 1, "boss"⟩⟩ :=
  ⟨rfl, rfl, by decide⟩

/-- Claim C7 amended: the identity routes declare per-route body caps
(MaxBody 0) but MaxBytesReader enforcement is lazy and these handlers
never read the body, so every identity handler's outcome is independent
of the request body size; an oversize body never fails with TooLarge. -/
theorem c7_body_cap_not_enforced_on_identity_routes (v : Vault) (env : Backend)
    (r : Request) (n : Nat) :
    apiDescribeIdentity.maxBody = 0 ∧ apiSelfDescribeIdentity.maxBody = 0 ∧
    apiDeleteIdentity.maxBody = 0 ∧ apiListIdentity.maxBody = 0 ∧
    describeIdentityHandler v env { r with bodySize := n } =
      describeIdentityHandler v env r ∧
    selfDescribeIdentityHandler v env { r with bodySize := n } =
      selfDescribeIdentityHandler v env r ∧
    deleteIdentityHandler v env { r with bodySize := n } =
      deleteIdentityHandler v env r ∧
    listIdentityHandler v env { r with bodySize := n } =
      listIdentityHandler v env r := by
  cases r
  exact ⟨rfl, rfl, rfl, rfl, rfl, rfl, rfl, rfl⟩

/-- Claim C10 counterexample: the caller "bea" is present in the identity
set, yet because its assigned policy "p1" does not exist the self-describe
request fails with the policy lookup's NotFound error instead of
returning bea's IdentityInfo. -/
theorem c10_dangling_policy_fails_self_describe :
    fixDanglingBackend.getIdentity "bea" = .ok fixInfo ∧
    selfDescribeIdentityHandler fixVault fixDanglingBackend fixSelfReq =
      ⟨some ⟨404, "policy does not exist"⟩, none,
       [.getIdentityCall "bea", .getPolicyCall "p1"]⟩ :=
  ⟨rfl, by decide⟩

/-- Claim C10 amended: the self-describe handler never invokes
VerifyRequest and — provided the backend itself returns no Forbidden
errors — never fails with Forbidden; an admin caller receives its record
with an empty inline policy, a non-admin whose assigned policy exists
receives its record with that policy inlined, and a non-admin with a
dangling policy assignment fails with the policy lookup's error instead
of receiving its record. -/
theorem c10_self_describe_no_policy_evaluation (v : Vault) (env : Backend) (r : Request)
    (np : String)
    (hm : r.method = "GET")
    (hurl : normalizeURL r.urlPath apiSelfDescribeIdentity.path = .ok np)
    (henc : r.enclaveName = "") :
    (BCall.verifyRequestCall ∉ (selfDescribeIdentityHandler v env r).calls) ∧
    (∀ info, env.getIdentity r.identity = .ok info → info.isAdmin = true →
       selfDescribeIdentityHandler v env r =
         ⟨none, some ⟨r.identity, true, info.policy, info.createdAt, info.createdBy, [], []⟩,
          [.getIdentityCall r.identity]⟩) ∧
    (∀ info p, env.getIdentity r.identity = .ok info → info.isAdmin = false →
       env.getPolicy info.policy = .ok p →
       selfDescribeIdentityHandler v env r =
         ⟨none, some ⟨r.identity, false, info.policy, info.createdAt, info.createdBy,
                      p.allow, p.deny⟩,
          [.getIdentityCall r.identity, .getPolicyCall info.policy]⟩) ∧
    (∀ info e, env.getIdentity r.identity = .ok info → info.isAdmin = false →
       env.getPolicy info.policy = .error e →
       selfDescribeIdentityHandler v env r =
         ⟨some e, none, [.getIdentityCall r.identity, .getPolicyCall info.policy]⟩) ∧
    (∀ e, (∀ id e2, env.getIdentity id = .error e2 → e2.status ≠ 403) →
          (∀ nm e2, env.getPolicy nm = .error e2 → e2.status ≠ 403) →
          (selfDescribeIdentityHandler v env r).httpErr = some e → e.status ≠ 403) := by
  refine ⟨?_, ?_, ?_, ?_, ?_⟩
  · unfold selfDescribeIdentityHandler
    simp only [hm, hurl, henc, lookupEnclave, Vault.GetEnclave]
    rcases henv : env.getIdentity r.identity with e | info
    · simp
    · by_cases hadm : info.isAdmin = true
      · simp [hadm]
      · rcases hpol : env.getPolicy info.policy with e2 | p <;>
          simp [hadm, hpol]
  · intro info hinfo hadm
    unfold selfDescribeIdentityHandler
    simp [hm, hurl, henc, lookupEnclave, Vault.GetEnclave, hinfo, hadm]
  · intro info p hinfo hadm hpol
    unfold selfDescribeIdentityHandler
    simp [hm, hurl, henc, lookupEnclave, Vault.GetEnclave, hinfo, hadm, hpol]
  · intro info e hinfo hadm hpol
    unfold selfDescribeIdentityHandler
    simp [hm, hurl, henc, lookupEnclave, Vault.GetEnclave, hinfo, hadm, hpol]
  · intro e hid hpol hout
    unfold selfDescribeIdentityHandler at hout
    simp only [hm, hurl, henc, lookupEnclave, Vault.GetEnclave] at hout
    rcases henv : env.getIdentity r.identity with e2 | info
    · rw [henv] at hout
      simp at hout
      subst hout
      exact hid _ _ henv
    · rw [henv] at hout
      by_cases hadm : info.isAdmin = true
      · simp [hadm] at hout
      · rcases hp : env.getPolicy info.policy with e3 | p
        · simp [hadm, hp] at hout
          subst hout
          exact hpol _ _ hp
        · simp [hadm, hp] at hout

/-- Witness for C10: the admin caller "ada" self-describes on the fixture
backend and receives its record with an empty inline policy. -/
theorem c10_self_describe_witness :
    selfDescribeIdentityHandler fixVault fixBackend
      ⟨"GET", "/v1/identity/self/describe", "ada", "", 0⟩ =
      ⟨none, some ⟨"ada", true, "", 1, "", [], []⟩, [.getIdentityCall "ada"]⟩ :=
  (c10_self_describe_no_policy_evaluation fixVault fixBackend
    ⟨"GET", "/v1/identity/self/describe", "ada", "", 0⟩ "/v1/identity/self/describe"
    rfl rfl rfl).2.1 fixAdminInfo rfl rfl

end Kes

